import Mathlib

/-!
# Verification of the dbus-mcp security policy engine

Shallow embedding of `src/dbus_mcp/security.py` (class `SecurityPolicy`):
the operation-category catalog, the glob-based method classifier
(`_categorize_method`), the safety-tier gate (`is_method_allowed`), the
sliding-window rate limiter (`_check_rate_limit`), argument sanitization
(`_sanitize_arguments`), the audit log (`_audit_log`, `get_audit_log`) and
the coarse facade (`check_operation`).

Python `datetime` timestamps are modelled as integers (seconds); the
60-second window comparison `timestamp > now - timedelta(minutes=1)` becomes
`now - 60 < t` over `Int`.  Python dicts appearing as literal tables in the
source (which iterate in insertion order) are modelled as association lists
in the declared order.  String scanning helpers work on `List Char`
(`String.data`) so that everything reduces in the kernel.
-/

namespace DbusMcp

/-- Python values stored in argument maps and audit entries.  The source
treats argument values opaquely (type `Any`); only string values are ever
produced by the engine itself (the redaction marker). -/
inductive Value where
  | str : String → Value
  | int : Int → Value
  | bool : Bool → Value
  | none : Value
deriving DecidableEq, Repr

/-- `fnmatch.fnmatch(name, pattern)` restricted to the pattern language the
catalog actually uses: literal characters and `*` (any run of characters);
`?` (any single character) is included for completeness of `fnmatch`.
On Linux `fnmatch.fnmatch` does no case normalization, so matching is
case-sensitive. -/
def globMatch : List Char → List Char → Bool
  | [], s => s.isEmpty
  | p :: ps, s =>
      if p = '*' then
        -- `*` consumes any run of characters: try every suffix of `s`
        s.tails.any (fun b => globMatch ps b)
      else
        match s with
        | [] => false
        | c :: cs => (p = '?' || p = c) && globMatch ps cs

/-- `fnmatch.fnmatch(method, pattern)`. -/
def fnmatch (method pattern : String) : Bool :=
  globMatch pattern.data method.data

/-- One entry of `SecurityPolicy.OPERATION_CATEGORIES`.  `safety_level` is
`category_info.get('safety_level')` (absent for forbidden categories);
`forbidden` is `category_info.get('forbidden', False)`. -/
structure OperationCategory where
  description : String
  patterns : List String
  safety_level : Option String := Option.none
  forbidden : Bool := false
  requires_interaction : Bool := false
  interaction_type : Option String := Option.none
deriving DecidableEq, Repr

/-- `SecurityPolicy.OPERATION_CATEGORIES`, an insertion-ordered dict in the
source, modelled as an association list in declared order. -/
def OPERATION_CATEGORIES : List (String × OperationCategory) := [
  ("read_state",
   { description := "Read application or system state",
     patterns := ["Get*", "List*", "Query*", "Is*", "Has*", "Read*"],
     safety_level := some "high" }),
  ("user_notification",
   { description := "Notify user without side effects",
     patterns := ["Notify", "ShowNotification", "Alert", "CloseNotification"],
     safety_level := some "high" }),
  ("clipboard_read",
   { description := "Read clipboard contents",
     patterns := ["*ClipboardContents", "GetClipboard*", "ReadClipboard*"],
     safety_level := some "high" }),
  ("media_control",
   { description := "Control media playback",
     patterns := ["Play", "Pause", "Next", "Previous", "Stop", "PlayPause"],
     safety_level := some "high" }),
  ("text_input",
   { description := "Send text to applications",
     patterns := ["*Input*", "InsertText", "TypeText", "SendKeys", "SetText*",
                  "sendText", "SendMessage", "ComposeEmail", "WriteDocument"],
     safety_level := some "medium" }),
  ("clipboard_write",
   { description := "Write to clipboard",
     patterns := ["SetClipboard*", "WriteClipboard*", "CopyTo*"],
     safety_level := some "medium" }),
  ("file_navigation",
   { description := "Open files/folders in applications",
     patterns := ["Open*", "Show*", "Navigate*", "Browse*", "Reveal*",
                  "Display*", "Load*", "View*"],
     safety_level := some "medium" }),
  ("window_management",
   { description := "Focus and arrange windows (non-destructive)",
     patterns := ["Activate*", "Focus*", "Raise*", "Minimize*", "SetActive*",
                  "activate", "focus", "raise", "lower", "show", "hide",
                  "cascadeDesktop", "unclutterDesktop", "showDesktop",
                  "nextDesktop", "previousDesktop", "highlightWindows"],
     safety_level := some "medium" }),
  ("desktop_navigation",
   { description := "Switch between virtual desktops",
     patterns := ["*Desktop", "switchTo*", "moveToDesktop*"],
     safety_level := some "medium" }),
  ("screenshot",
   { description := "Capture screen content",
     patterns := ["Screenshot*", "Capture*", "Grab*"],
     safety_level := some "medium" }),
  ("screen_brightness",
   { description := "Adjust display brightness",
     patterns := ["*Brightness*", "SetBrightness", "AdjustBrightness*"],
     safety_level := some "medium" }),
  ("interactive_selection",
   { description := "Operations requiring user to click/select",
     patterns := ["query*", "*Interactive*", "pick*", "select*"],
     safety_level := some "medium",
     requires_interaction := true,
     interaction_type := some "user_selection" }),
  ("interactive_confirmation",
   { description := "Operations requiring user confirmation",
     patterns := ["confirm*", "approve*", "authenticate*"],
     safety_level := some "medium",
     requires_interaction := true,
     interaction_type := some "user_confirmation" }),
  ("window_close",
   { description := "Close windows (potential data loss)",
     patterns := ["Close*", "Quit*", "Exit*", "killWindow", "terminate*"],
     safety_level := some "low" }),
  ("process_control",
   { description := "Start/stop processes and services",
     patterns := ["Start*", "Stop*", "Restart*", "Kill*", "Terminate*"],
     safety_level := some "low" }),
  ("system_config",
   { description := "Modify system configuration",
     patterns := ["Set*", "Configure*", "Update*", "Change*", "Apply*"],
     safety_level := some "low" }),
  ("document_operations",
   { description := "Save documents and export files",
     patterns := ["Save*", "Export*", "Print*", "Convert*"],
     safety_level := some "medium" }),
  ("communication",
   { description := "Send messages and emails",
     patterns := ["SendMessage", "SendEmail", "SendIM", "PostStatus"],
     safety_level := some "medium" }),
  ("media_management",
   { description := "Organize media files",
     patterns := ["AddToPlaylist", "ImportMedia", "TagFile", "OrganizePhotos"],
     safety_level := some "medium" }),
  ("search_operations",
   { description := "Search for files and content",
     patterns := ["Search*", "Find*", "Locate*", "QueryIndex"],
     safety_level := some "high" }),
  ("window_info",
   { description := "Query window and desktop information",
     patterns := ["queryWindowInfo", "getWindowInfo", "currentDesktop",
                  "supportInformation", "activeOutputName"],
     safety_level := some "high" }),
  ("system_power",
   { description := "Power management operations",
     patterns := ["PowerOff", "Reboot", "Shutdown", "Suspend", "Hibernate"],
     forbidden := true }),
  ("data_destruction",
   { description := "Delete or format data",
     patterns := ["Delete*", "Remove*", "Format*", "Destroy*", "Wipe*"],
     forbidden := true }),
  ("package_management",
   { description := "Install or remove software",
     patterns := ["Install*", "Uninstall*", "RemovePackage*", "UpdatePackage*"],
     forbidden := true })
]

/-- Does the category (one catalog pair) have a pattern matching `method`?
This is the inner loop of `_categorize_method`. -/
def catMatches (method : String) (p : String × OperationCategory) : Bool :=
  p.2.patterns.any (fun pat => fnmatch method pat)

/-- The loop of `_categorize_method`: walk the catalog in declared order and
return the first category whose patterns match.  The source returns the
category *name* and immediately re-reads `OPERATION_CATEGORIES[category]`;
since names are unique keys of the dict, returning the pair is the same
lookup fused in. -/
def categorizeAux (method : String) :
    List (String × OperationCategory) → Option (String × OperationCategory)
  | [] => Option.none
  | p :: rest =>
      if catMatches method p then some p else categorizeAux method rest

/-- `SecurityPolicy._categorize_method`: first matching category name, or
`None`. -/
def categorize_method (method : String) : Option String :=
  (categorizeAux method OPERATION_CATEGORIES).map (fun p => p.1)

/-- Python `needle in hay` substring containment, on char lists. -/
def containsSub (hay needle : List Char) : Bool :=
  match hay with
  | [] => needle.isEmpty
  | _ :: rest => needle.isPrefixOf hay || containsSub rest needle

/-- Python `'klipper' in service` etc., on strings. -/
def strContains (hay needle : String) : Bool :=
  containsSub hay.data needle.data

/-- `SecurityPolicy.is_method_allowed(service, interface, method)` for a
policy constructed with the given `safety_level` (the constructor guarantees
it is one of "high", "medium", "low").  Faithful to the branch chain of the
source: categorize, forbidden check, tier comparison, then two hard-coded
special cases, then fail-closed `False`. -/
def is_method_allowed (safety_level service iface method : String) : Bool :=
  match categorizeAux method OPERATION_CATEGORIES with
  | some (_, category_info) =>
      -- if category_info.get('forbidden', False): return False
      if category_info.forbidden then false
      else
        -- required_level = category_info.get('safety_level')
        let required_level := category_info.safety_level
        if required_level = some "high" then true
        else if required_level = some "medium" &&
                (safety_level = "medium" || safety_level = "low") then true
        else if required_level = some "low" && safety_level = "low" then true
        else false
  | Option.none =>
      -- special handling block, reached only when no category matched
      if safety_level = "medium" || safety_level = "low" then
        if method = "setClipboardContents" && strContains service "klipper" then
          true
        else if method = "activate" && iface = "org.kde.Kate.Application" then
          true
        else false
      else false

/-- `SecurityPolicy.FORBIDDEN_OPERATIONS`. -/
def FORBIDDEN_OPERATIONS : List String :=
  ["system.shutdown", "system.reboot", "system.poweroff",
   "system.format_disk", "system.install_package", "system.remove_package"]

/-- `SecurityPolicy.DEFAULT_RATE_LIMITS` (operations per minute). -/
def DEFAULT_RATE_LIMITS : List (String × Nat) :=
  [("default", 60), ("notify", 10), ("clipboard.write", 30),
   ("screenshot", 5), ("system.service_restart", 5)]

/-- The limit lookup of `_check_rate_limit`:
`DEFAULT_RATE_LIMITS[tool_name] if tool_name in DEFAULT_RATE_LIMITS else
DEFAULT_RATE_LIMITS['default']` (the default entry is 60). -/
def rateLimitFor (tool_name : String) : Nat :=
  match DEFAULT_RATE_LIMITS.find? (fun p => p.1 = tool_name) with
  | some p => p.2
  | Option.none => 60

/-- The pruning step of `_check_rate_limit`: keep timestamps with
`timestamp > now - timedelta(minutes=1)`. -/
def pruneWindow (now : Int) (hist : List Int) : List Int :=
  hist.filter (fun t => now - 60 < t)

/-- `SecurityPolicy._check_rate_limit` acting on one key's history list
(stored in `self.operation_history[tool_name]`, initially `[]` via
`defaultdict(list)`).  Returns the allow verdict and the new stored list:
on denial the pruned list is stored unchanged (no timestamp recorded); on
allowance `now` is appended. -/
def check_rate_limit (tool_name : String) (hist : List Int) (now : Int) :
    Bool × List Int :=
  if rateLimitFor tool_name ≤ (pruneWindow now hist).length then
    (false, pruneWindow now hist)
  else (true, pruneWindow now hist ++ [now])

/-- Run a sequence of rate-limit checks for one key at the given call
times, threading the stored history; returns the final history and the
list of verdicts in call order. -/
def runRateCalls (tool_name : String) (hist : List Int) :
    List Int → List Int × List Bool
  | [] => (hist, [])
  | t :: ts =>
      ((runRateCalls tool_name (check_rate_limit tool_name hist t).2 ts).1,
       (check_rate_limit tool_name hist t).1 ::
         (runRateCalls tool_name (check_rate_limit tool_name hist t).2 ts).2)

/-- The fields of `_sanitize_arguments`:
`sensitive_fields = {'password', 'token', 'secret', 'key'}`.  The source
iterates a set literal; iteration order does not matter because each field
is handled independently, so a fixed order is faithful. -/
def sensitive_fields : List String := ["password", "token", "secret", "key"]

/-- Python `d[k] = v` on a dict modelled as an association list with unique
keys: replace the value at key `k` (no-op on keys ≠ `k`). -/
def setKey (args : List (String × Value)) (k : String) (v : Value) :
    List (String × Value) :=
  args.map (fun kv => if kv.1 = k then (kv.1, v) else kv)

/-- The loop body of `_sanitize_arguments`:
`if field in sanitized: sanitized[field] = '<redacted>'`. -/
def sanitizeStep (sanitized : List (String × Value)) (field : String) :
    List (String × Value) :=
  if sanitized.any (fun kv => kv.1 = field) then
    setKey sanitized field (Value.str "<redacted>")
  else sanitized

/-- `SecurityPolicy._sanitize_arguments`: copy the dict, then for each
sensitive field present, overwrite its value with `'<redacted>'`.  The
`arguments.copy()` in the source makes this a pure function of its input:
the caller's map is never mutated. -/
def sanitize_arguments (arguments : List (String × Value)) :
    List (String × Value) :=
  sensitive_fields.foldl sanitizeStep arguments

/-- Python dict read `d.get(k)` on the association-list model: the value at
the (unique) key `k`, if present. -/
def dictGet (args : List (String × Value)) (k : String) : Option Value :=
  (args.find? (fun kv => kv.1 = k)).map (fun kv => kv.2)

/-- One entry of `self.audit_log` as built by `_audit_log`.  The
`datetime.now().isoformat()` timestamp is modelled as the integer `now`
of the enclosing call. -/
structure AuditEntry where
  timestamp : Int
  tool : String
  arguments : List (String × Value)
  result : String
deriving DecidableEq, Repr

/-- Python `l[-limit:]` for a non-negative `limit`: the last `limit`
elements, except that `-0` is `0` so `limit = 0` slices from the
beginning and yields the whole list. -/
def pySliceLast (l : List AuditEntry) (limit : Nat) : List AuditEntry :=
  if limit = 0 then l else l.drop (l.length - limit)

/-- Mutable state of a `SecurityPolicy` instance: `self.operation_history`
(a `defaultdict(list)`, modelled as an association list with `[]` default)
and `self.audit_log`. -/
structure PolicyState where
  operation_history : List (String × List Int)
  audit_log : List AuditEntry
deriving Repr

/-- Fresh state from `__init__`. -/
def initState : PolicyState := { operation_history := [], audit_log := [] }

/-- Read `self.operation_history[tool_name]` (defaultdict: `[]` when the
key is absent). -/
def historyOf (st : PolicyState) (tool_name : String) : List Int :=
  match st.operation_history.find? (fun p => p.1 = tool_name) with
  | some p => p.2
  | Option.none => []

/-- Write `self.operation_history[tool_name] = hist`. -/
def setHistory (st : PolicyState) (tool_name : String) (hist : List Int) :
    PolicyState :=
  if st.operation_history.any (fun p => p.1 = tool_name) then
    { st with operation_history :=
        (st.operation_history.map
          (fun p => if p.1 = tool_name then (p.1, hist) else p)) }
  else
    { st with operation_history := st.operation_history ++ [(tool_name, hist)] }

/-- The entry built by `_audit_log`: timestamp, tool, sanitized arguments
and the result string. -/
def mkEntry (now : Int) (tool_name : String)
    (arguments : List (String × Value)) (result : String) : AuditEntry :=
  { timestamp := now, tool := tool_name,
    arguments := sanitize_arguments arguments, result := result }

/-- The size-management step of `_audit_log`:
`if len(self.audit_log) > 10000: self.audit_log = self.audit_log[-5000:]`. -/
def truncateIfOver (log : List AuditEntry) : List AuditEntry :=
  if 10000 < log.length then pySliceLast log 5000 else log

/-- `SecurityPolicy._audit_log(tool_name, arguments, result)`: append an
entry with sanitized arguments, then if the log length exceeds 10000 keep
only `self.audit_log[-5000:]`. -/
def audit_log_record (st : PolicyState) (now : Int) (tool_name : String)
    (arguments : List (String × Value)) (result : String) : PolicyState :=
  { st with audit_log :=
      truncateIfOver (st.audit_log ++ [mkEntry now tool_name arguments result]) }

/-- `SecurityPolicy.get_audit_log(limit)` (default 100):
`self.audit_log[-limit:]`. -/
def get_audit_log (st : PolicyState) (limit : Nat) : List AuditEntry :=
  pySliceLast st.audit_log limit

/-- Wrap a string in ASCII single quotes (character 39), as the Python
f-strings `f"Operation '{tool_name}' is forbidden"` etc. do. -/
def sq (s : String) : String :=
  String.mk (Char.ofNat 39 :: (s.data ++ [Char.ofNat 39]))

/-- The data `check_operation` reads from the `SystemProfile` argument:
`profile.name`, `profile.get_available_tools()` (a dict of category name
to availability) and `profile.detect_init_system()`. -/
structure SystemProfile where
  name : String
  available_tools : List (String × Bool)
  init_system : String
deriving Repr

/-- Python `tool_name.split('.')[0]`: the prefix before the first dot
(`split` always yields a non-empty list, whose head is the run of
characters before the first separator). -/
def toolCategoryOf (tool_name : String) : String :=
  String.mk (tool_name.data.takeWhile (fun c => c ≠ '.'))

/-- Python `tool_name.startswith('system.')`. -/
def startsWithSystemDot (tool_name : String) : Bool :=
  "system.".data.isPrefixOf tool_name.data

/-- The tail of `check_operation` from the profile-restriction check on,
acting on the state `st2` left by the rate-limit check: the
available-tools check (`if tool_category in available_tools and not
available_tools[tool_category]`), then the systemd requirement for
`system.` tools (a branch that returns with no further audit entry), then
the final allow. -/
def profileStage (st2 : PolicyState) (now : Int) (tool_name : String)
    (arguments : List (String × Value)) (profile : SystemProfile) :
    (Bool × String) × PolicyState :=
  if (profile.available_tools.find?
        (fun p => p.1 = toolCategoryOf tool_name)).map (fun p => p.2)
      = some false then
    ((false, "Tool category " ++ sq (toolCategoryOf tool_name) ++
       " not available in profile " ++ profile.name),
     audit_log_record st2 now tool_name arguments "not_available_in_profile")
  else if startsWithSystemDot tool_name && !(profile.init_system = "systemd")
  then
    ((false, "System tools require systemd"), st2)
  else
    ((true, "Operation allowed"),
     audit_log_record st2 now tool_name arguments "allowed")

/-- The rate-limit verdict step of `check_operation`: `st2` is the state
with the updated history already stored (the source stores the pruned list
even on denial), `allowed` the verdict of `_check_rate_limit`. -/
def rateVerdictStage (st2 : PolicyState) (allowed : Bool) (now : Int)
    (tool_name : String) (arguments : List (String × Value))
    (profile : SystemProfile) : (Bool × String) × PolicyState :=
  if allowed = false then
    ((false, "Rate limit exceeded for " ++ sq tool_name),
     audit_log_record st2 now tool_name arguments "rate_limited")
  else profileStage st2 now tool_name arguments profile

/-- The forbidden-list check of `check_operation`, acting on the state
`st1` left by the `check_started` audit; on pass, runs the rate limiter
(whose mutation of `self.operation_history[tool_name]` is stored) and
continues. -/
def forbiddenStage (st1 : PolicyState) (now : Int) (tool_name : String)
    (arguments : List (String × Value)) (profile : SystemProfile) :
    (Bool × String) × PolicyState :=
  if FORBIDDEN_OPERATIONS.contains tool_name then
    ((false, "Operation " ++ sq tool_name ++ " is forbidden"),
     audit_log_record st1 now tool_name arguments "forbidden")
  else
    rateVerdictStage
      (setHistory st1 tool_name
        (check_rate_limit tool_name (historyOf st1 tool_name) now).2)
      (check_rate_limit tool_name (historyOf st1 tool_name) now).1
      now tool_name arguments profile

/-- `SecurityPolicy.check_operation(tool_name, arguments, profile)`:
audits `check_started`, then checks the forbidden list, then the rate
limit (which stores its updated history even on denial), then the
profile's available-tool categories, then the systemd requirement for
`system.` tools (this branch returns without a further audit entry), and
finally audits and allows.  Returns `(allowed, reason)` and the new
state. -/
def check_operation (st : PolicyState) (now : Int) (tool_name : String)
    (arguments : List (String × Value)) (profile : SystemProfile) :
    (Bool × String) × PolicyState :=
  forbiddenStage (audit_log_record st now tool_name arguments "check_started")
    now tool_name arguments profile

/-- `SecurityPolicy.is_method_allowed` as a state transformer: the method
reads only `self.safety_level` and never writes `self.audit_log` or
`self.operation_history`, so the state passes through unchanged. -/
def is_method_allowed_run (st : PolicyState) (safety_level service iface
    method : String) : Bool × PolicyState :=
  (is_method_allowed safety_level service iface method, st)

/-! ## Classifier lemmas -/

/-- The classifier loop returns `None` exactly when no category in the
(remaining) catalog has a matching pattern. -/
theorem categorizeAux_eq_none_iff (m : String) (l : List (String × OperationCategory)) :
    categorizeAux m l = Option.none ↔ ∀ q ∈ l, catMatches m q = false := by
  induction l with
  | nil => simp [categorizeAux]
  | cons p rest ih =>
      by_cases h : catMatches m p = true
      · simp [categorizeAux, h]
      · have hf : catMatches m p = false := by simpa using h
        simp [categorizeAux, hf, ih]

/-- The classifier loop returns `some pr` exactly when the catalog splits
as `pre ++ pr :: post` with `pr` matching and nothing in `pre` matching:
the first-match characterization. -/
theorem categorizeAux_eq_some_iff (m : String) (pr : String × OperationCategory)
    (l : List (String × OperationCategory)) :
    categorizeAux m l = some pr ↔
      ∃ pre post, l = pre ++ pr :: post ∧ catMatches m pr = true ∧
        ∀ q ∈ pre, catMatches m q = false := by
  induction l with
  | nil =>
      constructor
      · intro h; simp [categorizeAux] at h
      · rintro ⟨pre, post, habs, -, -⟩
        exact absurd habs (by simp)
  | cons p rest ih =>
      by_cases h : catMatches m p = true
      · simp only [categorizeAux, h, if_true]
        constructor
        · intro hsome
          obtain rfl : p = pr := by simpa using hsome
          exact ⟨[], rest, rfl, h, by simp⟩
        · rintro ⟨pre, post, hl, hm, hpre⟩
          cases pre with
          | nil =>
              obtain ⟨rfl, -⟩ : p = pr ∧ rest = post := by simpa using hl
              rfl
          | cons q pre2 =>
              obtain ⟨rfl, -⟩ : p = q ∧ rest = pre2 ++ pr :: post := by simpa using hl
              exact absurd h (by simp [hpre p (List.mem_cons_self _ _)])
      · have hf : catMatches m p = false := by simpa using h
        simp only [categorizeAux, hf, Bool.false_eq_true, if_false]
        rw [ih]
        constructor
        · rintro ⟨pre, post, hl, hm, hpre⟩
          refine ⟨p :: pre, post, by simp [hl], hm, ?_⟩
          intro q hq
          rcases List.mem_cons.mp hq with rfl | hq2
          · exact hf
          · exact hpre q hq2
        · rintro ⟨pre, post, hl, hm, hpre⟩
          cases pre with
          | nil =>
              obtain ⟨rfl, -⟩ : p = pr ∧ rest = post := by simpa using hl
              exact absurd hm (by simp [hf])
          | cons q pre2 =>
              obtain ⟨rfl, hrest⟩ : p = q ∧ rest = pre2 ++ pr :: post := by simpa using hl
              exact ⟨pre2, post, hrest, hm, fun r hr => hpre r (List.mem_cons_of_mem _ hr)⟩

/-- `*` in a pattern matches any run of characters: a star followed by a
rest-pattern matches `s` exactly when `s` splits as `a ++ b` with the
rest-pattern matching `b`. -/
theorem globMatch_star (ps : List Char) (s : List Char) :
    globMatch ('*' :: ps) s = true ↔
      ∃ a b, s = a ++ b ∧ globMatch ps b = true := by
  show (s.tails.any (fun b => globMatch ps b)) = true ↔ _
  rw [List.any_eq_true]
  constructor
  · rintro ⟨b, hb, hm⟩
    obtain ⟨a, rfl⟩ := (List.mem_tails b s).mp hb
    exact ⟨a, b, rfl, hm⟩
  · rintro ⟨a, b, rfl, hm⟩
    exact ⟨b, (List.mem_tails b (a ++ b)).mpr ⟨a, rfl⟩, hm⟩

/-! ## C3: forbidden categories are denied at every level -/

/-- C3: for every method whose first matching catalog category carries the
forbidden flag, `is_method_allowed` returns `False` at every configured
safety level (including the most permissive level "low"); the forbidden
flag is decided before and regardless of any tier comparison. -/
theorem c3_forbidden_denied_at_every_level
    (safety_level service iface method : String)
    (name : String) (info : OperationCategory)
    (hcat : categorizeAux method OPERATION_CATEGORIES = some (name, info))
    (hforb : info.forbidden = true) :
    is_method_allowed safety_level service iface method = false := by
  unfold is_method_allowed
  rw [hcat]
  simp [hforb]

/-- Witness for C3: `PowerOff` is classified into the forbidden
`system_power` category and is denied even at level "low". -/
theorem c3_forbidden_denied_witness :
    categorizeAux "PowerOff" OPERATION_CATEGORIES =
      some ("system_power",
        { description := "Power management operations",
          patterns := ["PowerOff", "Reboot", "Shutdown", "Suspend", "Hibernate"],
          forbidden := true }) ∧
    is_method_allowed "low" "org.freedesktop.login1"
      "org.freedesktop.login1.Manager" "PowerOff" = false := by
  refine ⟨by decide, ?_⟩
  exact c3_forbidden_denied_at_every_level "low" "org.freedesktop.login1"
    "org.freedesktop.login1.Manager" "PowerOff" "system_power"
    { description := "Power management operations",
      patterns := ["PowerOff", "Reboot", "Shutdown", "Suspend", "Hibernate"],
      forbidden := true } (by decide) (by decide)

/-! ## C2: fail-closed default for unclassified methods -/

/-- C2: a method matching zero catalog patterns is denied for every
service, interface and safety level; the two hard-coded special-case
branches never allow an unclassified method, because `setClipboardContents`
and `activate` do match catalog patterns. -/
theorem c2_fail_closed_default
    (safety_level service iface method : String)
    (h : OPERATION_CATEGORIES.all
      (fun p => p.2.patterns.all (fun pat => !(fnmatch method pat))) = true) :
    is_method_allowed safety_level service iface method = false := by
  have hnone : categorizeAux method OPERATION_CATEGORIES = Option.none := by
    rw [categorizeAux_eq_none_iff]
    intro q hq
    have hq2 := List.all_eq_true.mp h q hq
    simp only [List.all_eq_true, Bool.not_eq_true'] at hq2
    cases hcm : catMatches method q with
    | false => rfl
    | true =>
        exfalso
        have hcm2 : q.2.patterns.any (fun pat => fnmatch method pat) = true := hcm
        obtain ⟨pat, hpat, hf⟩ := List.any_eq_true.mp hcm2
        rw [hq2 pat hpat] at hf
        exact Bool.false_ne_true hf
  have hm1 : method ≠ "setClipboardContents" := by
    rintro rfl
    have hmem : ("clipboard_read",
        ({ description := "Read clipboard contents",
           patterns := ["*ClipboardContents", "GetClipboard*", "ReadClipboard*"],
           safety_level := some "high" } : OperationCategory))
        ∈ OPERATION_CATEGORIES := by decide
    have hx := List.all_eq_true.mp (List.all_eq_true.mp h _ hmem)
      "*ClipboardContents" (by decide)
    exact absurd hx (by decide)
  have hm2 : method ≠ "activate" := by
    rintro rfl
    have hmem : ("window_management",
        ({ description := "Focus and arrange windows (non-destructive)",
           patterns := ["Activate*", "Focus*", "Raise*", "Minimize*", "SetActive*",
                        "activate", "focus", "raise", "lower", "show", "hide",
                        "cascadeDesktop", "unclutterDesktop", "showDesktop",
                        "nextDesktop", "previousDesktop", "highlightWindows"],
           safety_level := some "medium" } : OperationCategory))
        ∈ OPERATION_CATEGORIES := by decide
    have hx := List.all_eq_true.mp (List.all_eq_true.mp h _ hmem)
      "activate" (by decide)
    exact absurd hx (by decide)
  unfold is_method_allowed
  rw [hnone]
  simp [hm1, hm2]

/-- Witness for C2: the method name `zzz` matches no catalog pattern and is
denied even at level "low" against a klipper service. -/
theorem c2_fail_closed_witness :
    (OPERATION_CATEGORIES.all
      (fun p => p.2.patterns.all (fun pat => !(fnmatch "zzz" pat))) = true) ∧
    is_method_allowed "low" "org.kde.klipper" "org.kde.klipper.klipper"
      "zzz" = false := by
  refine ⟨by decide, ?_⟩
  exact c2_fail_closed_default "low" "org.kde.klipper" "org.kde.klipper.klipper"
    "zzz" (by decide)

/-! ## C1: tier lattice and monotonicity -/

/-- C1: for a method classified into a non-forbidden category,
`is_method_allowed` obeys the tier lattice — tier "high" is allowed at
every configured level, tier "medium" exactly at levels medium and low,
tier "low" exactly at level low; and over all inputs the allowed set at
"low" contains the allowed set at "medium", which contains the allowed set
at "high". -/
theorem c1_tier_lattice_monotone :
    (∀ safety_level service iface method name info,
      categorizeAux method OPERATION_CATEGORIES = some (name, info) →
      info.forbidden = false →
      ((info.safety_level = some "high" →
          is_method_allowed safety_level service iface method = true) ∧
       (info.safety_level = some "medium" →
          (is_method_allowed safety_level service iface method = true ↔
            safety_level = "medium" ∨ safety_level = "low")) ∧
       (info.safety_level = some "low" →
          (is_method_allowed safety_level service iface method = true ↔
            safety_level = "low")))) ∧
    (∀ service iface method,
      (is_method_allowed "high" service iface method = true →
        is_method_allowed "medium" service iface method = true) ∧
      (is_method_allowed "medium" service iface method = true →
        is_method_allowed "low" service iface method = true)) := by
  constructor
  · intro safety_level service iface method name info hcat hforb
    unfold is_method_allowed
    rw [hcat]
    simp only [hforb, Bool.false_eq_true, if_false]
    refine ⟨fun hs => by simp [hs], fun hs => ?_, fun hs => ?_⟩
    · by_cases h1 : safety_level = "medium" <;>
        by_cases h2 : safety_level = "low" <;>
        simp [hs, h1, h2]
    · by_cases h2 : safety_level = "low" <;> simp [hs, h2]
  · intro service iface method
    cases hcat : categorizeAux method OPERATION_CATEGORIES with
    | none =>
        unfold is_method_allowed
        rw [hcat]
        simp
    | some pr =>
        obtain ⟨name, info⟩ := pr
        unfold is_method_allowed
        rw [hcat]
        by_cases hforb : info.forbidden = true
        · simp [hforb]
        · have hf : info.forbidden = false := by simpa using hforb
          simp only [hf, Bool.false_eq_true, if_false]
          by_cases h1 : info.safety_level = some "high"
          · simp [h1]
          · by_cases h2 : info.safety_level = some "medium"
            · simp [h1, h2]
            · by_cases h3 : info.safety_level = some "low"
              · simp [h1, h2, h3]
              · simp [h1, h2, h3]

/-- Witness for C1: `Notify` lies in the tier-"high" category
`user_notification` and is allowed at level "high"; monotonicity then
gives allowance at "medium" as well. -/
theorem c1_tier_lattice_witness :
    categorizeAux "Notify" OPERATION_CATEGORIES =
      some ("user_notification",
        { description := "Notify user without side effects",
          patterns := ["Notify", "ShowNotification", "Alert", "CloseNotification"],
          safety_level := some "high" }) ∧
    is_method_allowed "high" "org.freedesktop.Notifications"
      "org.freedesktop.Notifications" "Notify" = true ∧
    is_method_allowed "medium" "org.freedesktop.Notifications"
      "org.freedesktop.Notifications" "Notify" = true := by
  have hcat : categorizeAux "Notify" OPERATION_CATEGORIES =
      some ("user_notification",
        { description := "Notify user without side effects",
          patterns := ["Notify", "ShowNotification", "Alert", "CloseNotification"],
          safety_level := some "high" }) := by decide
  have h1 := (c1_tier_lattice_monotone.1 "high" "org.freedesktop.Notifications"
    "org.freedesktop.Notifications" "Notify" _ _ hcat (by decide)).1 (by decide)
  have h2 := (c1_tier_lattice_monotone.2 "org.freedesktop.Notifications"
    "org.freedesktop.Notifications" "Notify").1 h1
  exact ⟨hcat, h1, h2⟩

/-! ## C9: classifier determinism -/

/-- C9: `_categorize_method` is a deterministic first-match over the
catalog in declared order: it returns `some name` exactly when the catalog
splits as `pre ++ (name, info) :: post` with `info` matching and no earlier
category matching, and `None` exactly when no category matches.  In
particular `SetClipboardContents` matches patterns of both clipboard
categories and is classified as the earlier-declared `clipboard_read`;
and `*` in a pattern matches any run of characters. -/
theorem c9_classifier_first_match :
    (∀ method name, categorize_method method = some name ↔
      ∃ pre info post, OPERATION_CATEGORIES = pre ++ (name, info) :: post ∧
        catMatches method (name, info) = true ∧
        ∀ q ∈ pre, catMatches method q = false) ∧
    (∀ method, categorize_method method = Option.none ↔
      ∀ q ∈ OPERATION_CATEGORIES, catMatches method q = false) ∧
    categorize_method "SetClipboardContents" = some "clipboard_read" ∧
    fnmatch "SetClipboardContents" "*ClipboardContents" = true ∧
    fnmatch "SetClipboardContents" "SetClipboard*" = true ∧
    (∀ ps s, globMatch ('*' :: ps) s = true ↔
      ∃ a b, s = a ++ b ∧ globMatch ps b = true) := by
  refine ⟨?_, ?_, by decide, by decide, by decide, globMatch_star⟩
  · intro method name
    unfold categorize_method
    rw [Option.map_eq_some']
    constructor
    · rintro ⟨⟨n, info⟩, hsome, rfl⟩
      obtain ⟨pre, post, hl, hm, hpre⟩ :=
        (categorizeAux_eq_some_iff method (n, info) _).mp hsome
      exact ⟨pre, info, post, hl, hm, hpre⟩
    · rintro ⟨pre, info, post, hl, hm, hpre⟩
      exact ⟨(name, info),
        (categorizeAux_eq_some_iff method (name, info) _).mpr ⟨pre, post, hl, hm, hpre⟩,
        rfl⟩
  · intro method
    unfold categorize_method
    rw [Option.map_eq_none']
    exact categorizeAux_eq_none_iff method _

/-- Witness for C9: the concrete first-match decomposition of the catalog
at `SetClipboardContents`, obtained by applying the characterization. -/
theorem c9_classifier_witness :
    ∃ pre info post,
      OPERATION_CATEGORIES = pre ++ ("clipboard_read", info) :: post ∧
      catMatches "SetClipboardContents" ("clipboard_read", info) = true ∧
      ∀ q ∈ pre, catMatches "SetClipboardContents" q = false :=
  (c9_classifier_first_match.1 "SetClipboardContents" "clipboard_read").mp
    (by decide)

/-! ## C5: argument sanitization -/

/-- Reading an association list at a cons cell. -/
theorem dictGet_cons (x : String × Value) (xs : List (String × Value)) (k : String) :
    dictGet (x :: xs) k = if x.1 = k then some x.2 else dictGet xs k := by
  by_cases h : x.1 = k
  · simp [dictGet, List.find?_cons_of_pos, h]
  · simp [dictGet, List.find?_cons_of_neg, h]

/-- Reading after a dict write: `setKey` changes exactly the value at its
key. -/
theorem dictGet_setKey (l : List (String × Value)) (f k : String) (v : Value) :
    dictGet (setKey l f v) k =
      if k = f then (dictGet l k).map (fun _ => v) else dictGet l k := by
  induction l with
  | nil =>
      simp only [setKey, List.map_nil]
      by_cases hk : k = f <;> simp [dictGet, hk]
  | cons kv rest ih =>
      simp only [setKey, List.map_cons] at ih ⊢
      by_cases h1 : kv.1 = f
      · by_cases h2 : kv.1 = k
        · have hkf : k = f := h2 ▸ h1
          simp [dictGet_cons, h1, h2, hkf]
        · have hkf : ¬(k = f) := fun hc => h2 (by rw [h1, hc])
          simp [dictGet_cons, h1, h2, hkf, Ne.symm hkf, ih]
      · by_cases h2 : kv.1 = k
        · have hkf : ¬(k = f) := fun hc => h1 (by rw [h2, hc])
          simp [dictGet_cons, h1, h2, hkf]
        · simp [dictGet_cons, h1, h2, ih]

/-- Reading after one sanitization step: the value at the step's field is
redacted when present; everything else is untouched. -/
theorem dictGet_sanitizeStep (l : List (String × Value)) (f k : String) :
    dictGet (sanitizeStep l f) k =
      if k = f then (dictGet l k).map (fun _ => Value.str "<redacted>")
      else dictGet l k := by
  unfold sanitizeStep
  by_cases hp : l.any (fun kv => kv.1 = f) = true
  · simp [hp, dictGet_setKey]
  · have hnone : dictGet l f = Option.none := by
      have hf : l.find? (fun kv => kv.1 = f) = Option.none := by
        rw [List.find?_eq_none]
        intro x hx hcontra
        exact hp (List.any_eq_true.mpr ⟨x, hx, hcontra⟩)
      simp [dictGet, hf]
    simp only [hp, Bool.false_eq_true, if_false]
    by_cases hk : k = f
    · subst hk; simp [hnone]
    · simp [hk]

/-- One sanitization step never adds, drops or renames keys. -/
theorem keys_sanitizeStep (l : List (String × Value)) (f : String) :
    (sanitizeStep l f).map (fun kv => kv.1) = l.map (fun kv => kv.1) := by
  unfold sanitizeStep
  split
  · unfold setKey
    rw [List.map_map]
    apply List.map_congr_left
    intro kv _
    by_cases h : kv.1 = f <;> simp [h]
  · rfl

/-- C5: sanitization replaces the values of exactly the top-level keys
password, token, secret and key (when present) with `<redacted>`, leaves
every other top-level key's value unchanged, preserves the key list, and —
being a pure function of a copied dict — never modifies the original
argument map; in particular the spec's concrete example holds. -/
theorem c5_sanitize_redaction :
    (∀ args k, k ∈ sensitive_fields →
      dictGet (sanitize_arguments args) k =
        (dictGet args k).map (fun _ => Value.str "<redacted>")) ∧
    (∀ args k, k ∉ sensitive_fields →
      dictGet (sanitize_arguments args) k = dictGet args k) ∧
    (∀ args, (sanitize_arguments args).map (fun kv => kv.1) =
      args.map (fun kv => kv.1)) ∧
    sanitize_arguments [("password", Value.str "x"), ("title", Value.str "y")] =
      [("password", Value.str "<redacted>"), ("title", Value.str "y")] := by
  have hstep : ∀ args, sanitize_arguments args =
      sanitizeStep (sanitizeStep (sanitizeStep
        (sanitizeStep args "password") "token") "secret") "key" :=
    fun args => rfl
  refine ⟨?_, ?_, ?_, by decide⟩
  · intro args k hk
    fin_cases hk <;> simp [hstep, dictGet_sanitizeStep]
  · intro args k hk
    obtain ⟨h1, h2, h3, h4⟩ :
        k ≠ "password" ∧ k ≠ "token" ∧ k ≠ "secret" ∧ k ≠ "key" := by
      simpa [sensitive_fields] using hk
    simp [hstep, dictGet_sanitizeStep, h1, h2, h3, h4]
  · intro args
    simp [hstep, keys_sanitizeStep]

/-- Witness for C5: the redaction of the password key in the spec's
concrete example, obtained by applying the theorem. -/
theorem c5_sanitize_witness :
    ("password" ∈ sensitive_fields) ∧
    dictGet (sanitize_arguments
        [("password", Value.str "x"), ("title", Value.str "y")]) "password" =
      (dictGet [("password", Value.str "x"), ("title", Value.str "y")]
        "password").map (fun _ => Value.str "<redacted>") :=
  ⟨by decide, c5_sanitize_redaction.1
    [("password", Value.str "x"), ("title", Value.str "y")] "password" (by decide)⟩

/-! ## C6: audit log cap -/

/-- `_audit_log` without truncation: below the high-water mark the new
entry is appended and nothing else changes. -/
theorem audit_log_record_of_le (st : PolicyState) (now : Int) (tool : String)
    (args : List (String × Value)) (result : String)
    (h : st.audit_log.length + 1 ≤ 10000) :
    (audit_log_record st now tool args result).audit_log =
      st.audit_log ++ [mkEntry now tool args result] := by
  have hlen : ¬(10000 < (st.audit_log ++ [mkEntry now tool args result]).length) := by
    rw [List.length_append]
    simp only [List.length_cons, List.length_nil]
    omega
  show truncateIfOver (st.audit_log ++ [mkEntry now tool args result]) = _
  unfold truncateIfOver
  rw [if_neg hlen]

/-- `_audit_log` never touches the rate-limit history. -/
theorem audit_log_record_history (st : PolicyState) (now : Int) (tool : String)
    (args : List (String × Value)) (result : String) :
    (audit_log_record st now tool args result).operation_history =
      st.operation_history := rfl

/-- Writing a rate-limit history never touches the audit log. -/
theorem setHistory_audit_log (st : PolicyState) (tool : String) (hist : List Int) :
    (setHistory st tool hist).audit_log = st.audit_log := by
  unfold setHistory
  split <;> rfl

/-- `_audit_log` preserves the bound `length ≤ 10000`. -/
theorem audit_log_record_length_le (st : PolicyState) (now : Int) (tool : String)
    (args : List (String × Value)) (result : String)
    (h : st.audit_log.length ≤ 10000) :
    (audit_log_record st now tool args result).audit_log.length ≤ 10000 := by
  by_cases hc : st.audit_log.length + 1 ≤ 10000
  · rw [audit_log_record_of_le st now tool args result hc]
    rw [List.length_append]
    simp only [List.length_cons, List.length_nil]
    omega
  · have hgt : 10000 < (st.audit_log ++ [mkEntry now tool args result]).length := by
      rw [List.length_append]
      simp only [List.length_cons, List.length_nil]
      omega
    show (truncateIfOver (st.audit_log ++ [mkEntry now tool args result])).length ≤ 10000
    unfold truncateIfOver pySliceLast
    rw [if_pos hgt, if_neg (by omega : ¬((5000 : Nat) = 0))]
    rw [List.length_drop]
    omega

/-- C6: the audit log length is bounded: a record append that pushes the
log past the 10000-entry high-water mark leaves exactly the most recent
5000 entries of the appended log (a suffix, so relative order is
preserved); appends below the mark preserve `length ≤ 10000`; and
`check_operation` preserves `length ≤ 10000` on every path. -/
theorem c6_audit_cap (st : PolicyState) (now : Int) (tool : String)
    (args : List (String × Value)) (result : String) :
    (10000 < st.audit_log.length + 1 →
      ((audit_log_record st now tool args result).audit_log.length = 5000 ∧
       (audit_log_record st now tool args result).audit_log <:+
         st.audit_log ++ [mkEntry now tool args result])) ∧
    (st.audit_log.length ≤ 10000 →
      (audit_log_record st now tool args result).audit_log.length ≤ 10000) ∧
    (∀ profile, st.audit_log.length ≤ 10000 →
      (check_operation st now tool args profile).2.audit_log.length ≤ 10000) := by
  refine ⟨?_, audit_log_record_length_le st now tool args result, ?_⟩
  · intro h
    have hgt : 10000 < (st.audit_log ++ [mkEntry now tool args result]).length := by
      rw [List.length_append]
      simp only [List.length_cons, List.length_nil]
      omega
    constructor
    · show (truncateIfOver (st.audit_log ++ [mkEntry now tool args result])).length
        = 5000
      unfold truncateIfOver pySliceLast
      rw [if_pos hgt, if_neg (by omega : ¬((5000 : Nat) = 0))]
      rw [List.length_drop, List.length_append]
      simp only [List.length_cons, List.length_nil]
      omega
    · show truncateIfOver (st.audit_log ++ [mkEntry now tool args result]) <:+ _
      unfold truncateIfOver pySliceLast
      rw [if_pos hgt, if_neg (by omega : ¬((5000 : Nat) = 0))]
      exact List.drop_suffix _ _
  · intro profile h
    have h1 := audit_log_record_length_le st now tool args "check_started" h
    unfold check_operation forbiddenStage
    split
    · exact audit_log_record_length_le _ now tool args "forbidden" h1
    · have h2 : (setHistory (audit_log_record st now tool args "check_started")
          tool (check_rate_limit tool
            (historyOf (audit_log_record st now tool args "check_started") tool)
            now).2).audit_log.length ≤ 10000 := by
        rw [setHistory_audit_log]
        exact h1
      unfold rateVerdictStage
      split
      · exact audit_log_record_length_le _ now tool args "rate_limited" h2
      · unfold profileStage
        split
        · exact audit_log_record_length_le _ now tool args
            "not_available_in_profile" h2
        · split
          · exact h2
          · exact audit_log_record_length_le _ now tool args "allowed" h2

/-- Witness for C6: a full log of 10000 entries is truncated to its most
recent 5000 on the next append, and an append to the empty log stays
within the bound. -/
theorem c6_audit_cap_witness :
    (10000 <
      (List.replicate 10000 (mkEntry 0 "t" [] "r") : List AuditEntry).length + 1) ∧
    ((audit_log_record
        { operation_history := [],
          audit_log := List.replicate 10000 (mkEntry 0 "t" [] "r") }
        0 "t" [] "r").audit_log.length = 5000) ∧
    (initState.audit_log.length ≤ 10000) ∧
    ((audit_log_record initState 0 "t" [] "r").audit_log.length ≤ 10000) := by
  have h : 10000 <
      (List.replicate 10000 (mkEntry 0 "t" [] "r") : List AuditEntry).length + 1 := by
    rw [List.length_replicate]
    omega
  refine ⟨h, ?_, by decide, ?_⟩
  · exact ((c6_audit_cap
      { operation_history := [],
        audit_log := List.replicate 10000 (mkEntry 0 "t" [] "r") }
      0 "t" [] "r").1 h).1
  · exact (c6_audit_cap initState 0 "t" [] "r").2.1 (by decide)

/-! ## C10: audit query edge case at limit 0 -/

/-- C10: `get_audit_log limit` returns the most recent
`min limit length` records in order (a suffix of the log) for every
`limit ≥ 1`, but at `limit = 0` the negative slice `[-0:]` degenerates to
the whole list, so the entire audit log is returned. -/
theorem c10_get_audit_log_limit (st : PolicyState) (limit : Nat) :
    (get_audit_log st 0 = st.audit_log) ∧
    (1 ≤ limit →
      (get_audit_log st limit).length = min limit st.audit_log.length ∧
      get_audit_log st limit <:+ st.audit_log) := by
  constructor
  · simp [get_audit_log, pySliceLast]
  · intro hl
    have hne : ¬(limit = 0) := by omega
    unfold get_audit_log pySliceLast
    simp only [hne, if_false]
    constructor
    · rw [List.length_drop]
      omega
    · exact List.drop_suffix _ _

/-- Witness for C10: on a two-entry log, limit 1 returns exactly the most
recent entry (length `min 1 2 = 1`, as a suffix), by the theorem. -/
theorem c10_get_audit_log_witness :
    (1 ≤ 1) ∧
    ((get_audit_log
        { operation_history := [],
          audit_log := [mkEntry 1 "a" [] "r", mkEntry 2 "b" [] "r"] } 1).length =
      min 1 ([mkEntry 1 "a" [] "r", mkEntry 2 "b" [] "r"] : List AuditEntry).length ∧
     get_audit_log
        { operation_history := [],
          audit_log := [mkEntry 1 "a" [] "r", mkEntry 2 "b" [] "r"] } 1 <:+
       [mkEntry 1 "a" [] "r", mkEntry 2 "b" [] "r"]) :=
  ⟨by omega,
   (c10_get_audit_log_limit
      { operation_history := [],
        audit_log := [mkEntry 1 "a" [] "r", mkEntry 2 "b" [] "r"] } 1).2 (by omega)⟩

/-! ## C4: sliding-window rate limiting -/

/-- Pruning removes nothing when every recorded timestamp is inside the
trailing 60-second window of `now`. -/
theorem pruneWindow_of_all (now : Int) (hist : List Int)
    (h : ∀ t ∈ hist, now - 60 < t) : pruneWindow now hist = hist :=
  List.filter_eq_self.mpr (fun a ha => by simpa using h a ha)

/-- Within one 60-second window, as long as the recorded history plus the
remaining calls fit under the key's limit, every call is allowed and every
timestamp is recorded in order. -/
theorem runRateCalls_all_allowed (key : String) (lo : Int) :
    ∀ (ts hh : List Int),
      hh.length + ts.length ≤ rateLimitFor key →
      (∀ t ∈ hh, lo ≤ t ∧ t < lo + 60) →
      (∀ t ∈ ts, lo ≤ t ∧ t < lo + 60) →
      runRateCalls key hh ts = (hh ++ ts, List.replicate ts.length true) := by
  intro ts
  induction ts with
  | nil => intro hh _ _ _; simp [runRateCalls]
  | cons t ts ih =>
      intro hh hnum hhw htw
      have hprune : pruneWindow t hh = hh := by
        apply pruneWindow_of_all
        intro x hx
        have hx2 := hhw x hx
        have ht2 := htw t (List.mem_cons_self _ _)
        omega
      have hlt : (pruneWindow t hh).length < rateLimitFor key := by
        rw [hprune]
        simp only [List.length_cons] at hnum
        omega
      have hstep : check_rate_limit key hh t = (true, hh ++ [t]) := by
        unfold check_rate_limit
        rw [if_neg (not_le.mpr hlt), hprune]
      have hrec := ih (hh ++ [t])
        (by simp only [List.length_append, List.length_cons, List.length_nil] at hnum ⊢; omega)
        (by
          intro x hx
          rcases List.mem_append.mp hx with hx1 | hx1
          · exact hhw x hx1
          · obtain rfl : x = t := by simpa using hx1
            exact htw x (List.mem_cons_self _ _))
        (fun x hx => htw x (List.mem_cons_of_mem _ hx))
      simp [runRateCalls, hstep, hrec, List.replicate_succ]

/-- C4: for every operation key with per-key limit N (explicit table entry,
else the default 60): starting from empty history, N calls within one
60-second window are all allowed and recorded; the (N+1)-th call inside the
window is denied and the stored history is unchanged; a later call more
than 60 seconds after the first recorded timestamp is allowed again after
pruning. -/
theorem c4_rate_window (key : String) (t0 : Int) (rest : List Int)
    (lo t_deny t_again : Int)
    (hlen : (t0 :: rest).length = rateLimitFor key)
    (hwin : ∀ t ∈ t0 :: rest, lo ≤ t ∧ t < lo + 60)
    (hdeny : ∀ t ∈ t0 :: rest, t_deny - 60 < t)
    (hagain : t0 + 60 < t_again) :
    runRateCalls key [] (t0 :: rest) =
      (t0 :: rest, List.replicate (rateLimitFor key) true) ∧
    check_rate_limit key (t0 :: rest) t_deny = (false, t0 :: rest) ∧
    (check_rate_limit key (t0 :: rest) t_again).1 = true := by
  refine ⟨?_, ?_, ?_⟩
  · have hrun := runRateCalls_all_allowed key lo (t0 :: rest) []
      (by simp [hlen]) (by simp) hwin
    rw [hlen] at hrun
    simpa using hrun
  · have hprune := pruneWindow_of_all t_deny (t0 :: rest) hdeny
    unfold check_rate_limit
    rw [hprune, if_pos (le_of_eq hlen.symm)]
  · have hdrop : pruneWindow t_again (t0 :: rest) = pruneWindow t_again rest := by
      unfold pruneWindow
      rw [List.filter_cons]
      have hout : ¬(t_again - 60 < t0) := by omega
      simp [hout]
    have hlt : (pruneWindow t_again (t0 :: rest)).length < rateLimitFor key := by
      rw [hdrop]
      have h1 : (pruneWindow t_again rest).length ≤ rest.length :=
        List.length_filter_le _ _
      simp only [List.length_cons] at hlen
      omega
    unfold check_rate_limit
    rw [if_neg (not_le.mpr hlt)]

/-- Witness for C4 on the key `screenshot` (limit 5): five calls at times
0..4 are all allowed; a sixth at time 50 is denied leaving the history
unchanged; a call at time 61 (more than 60s after the first) is allowed. -/
theorem c4_rate_window_witness :
    (([0, 1, 2, 3, 4] : List Int).length = rateLimitFor "screenshot") ∧
    runRateCalls "screenshot" [] [0, 1, 2, 3, 4] =
      ([0, 1, 2, 3, 4], List.replicate (rateLimitFor "screenshot") true) ∧
    check_rate_limit "screenshot" [0, 1, 2, 3, 4] 50 =
      (false, [0, 1, 2, 3, 4]) ∧
    (check_rate_limit "screenshot" [0, 1, 2, 3, 4] 61).1 = true := by
  have h := c4_rate_window "screenshot" 0 [1, 2, 3, 4] 0 50 61
    (by decide) (by decide) (by decide) (by decide)
  exact ⟨by decide, h.1, h.2.1, h.2.2⟩

/-! ## C7: ordering of the facade checks -/

/-- Auxiliary: `find?` after updating the value at a present key finds the
new value. -/
theorem find?_update_self (l : List (String × List Int)) (t : String)
    (h : List Int) (hany : l.any (fun p => p.1 = t) = true) :
    (l.map (fun p => if p.1 = t then (p.1, h) else p)).find? (fun p => p.1 = t)
      = some (t, h) := by
  induction l with
  | nil => simp at hany
  | cons q rest ih =>
      by_cases hq : q.1 = t
      · simp [List.find?_cons_of_pos, hq]
      · rw [List.map_cons, if_neg hq,
          List.find?_cons_of_neg _ (by simp [hq])]
        apply ih
        simpa [hq] using hany

/-- Auxiliary: `find?` skips a prefix containing no match. -/
theorem find?_append_right (l1 l2 : List (String × List Int))
    (p : String × List Int → Bool) (h : l1.find? p = Option.none) :
    (l1 ++ l2).find? p = l2.find? p := by
  induction l1 with
  | nil => simp
  | cons q rest ih =>
      have hq : ¬(p q = true) := by
        intro hc
        rw [List.find?_cons_of_pos _ hc] at h
        exact Option.noConfusion h
      rw [List.find?_cons_of_neg _ hq] at h
      rw [List.cons_append, List.find?_cons_of_neg _ hq]
      exact ih h

/-- Reading back the history just stored for a key. -/
theorem historyOf_setHistory_self (st : PolicyState) (t : String)
    (h : List Int) : historyOf (setHistory st t h) t = h := by
  unfold historyOf setHistory
  by_cases hp : st.operation_history.any (fun p => p.1 = t) = true
  · simp only [if_pos hp]
    rw [find?_update_self _ _ _ hp]
  · simp only [hp, Bool.false_eq_true, if_false]
    have hnone : st.operation_history.find? (fun p => p.1 = t) = Option.none := by
      rw [List.find?_eq_none]
      intro x hx hc
      exact hp (List.any_eq_true.mpr ⟨x, hx, hc⟩)
    rw [find?_append_right _ _ _ hnone,
      List.find?_cons_of_pos _ (by simp)]

/-- `_audit_log` never changes any rate-limit history. -/
theorem historyOf_audit_log_record (st : PolicyState) (now : Int)
    (tool k : String) (args : List (String × Value)) (result : String) :
    historyOf (audit_log_record st now tool args result) k = historyOf st k := rfl

/-- C7 counterexample: the claim fails on the code.  `check_operation`
applies the rate limiter *before* the profile check: with the
`screenshot` category disabled in the profile and the rate limit already
exhausted, the denial reason is the rate-limit reason, not the profile
reason; and from a fresh state, a profile-denied `screenshot` call records
a timestamp in the rate-limit history (consumes a slot). -/
theorem c7_profile_order_counterexample :
    ((check_operation
        { operation_history := [("screenshot", [0, 0, 0, 0, 0])], audit_log := [] }
        0 "screenshot" []
        { name := "p", available_tools := [("screenshot", false)],
          init_system := "systemd" }).1.2 =
      "Rate limit exceeded for " ++ sq "screenshot") ∧
    ((check_operation
        { operation_history := [("screenshot", [0, 0, 0, 0, 0])], audit_log := [] }
        0 "screenshot" []
        { name := "p", available_tools := [("screenshot", false)],
          init_system := "systemd" }).1.2 ≠
      "Tool category " ++ sq "screenshot" ++ " not available in profile p") ∧
    (historyOf (check_operation initState 0 "screenshot" []
        { name := "p", available_tools := [("screenshot", false)],
          init_system := "systemd" }).2 "screenshot" = [0]) := by
  refine ⟨by decide, by decide, by decide⟩

/-- C7 amended: the profile-availability check runs *after* the forbidden
list and the rate limiter.  For a non-forbidden tool within its rate
limit whose category is disabled in the profile, `check_operation` denies
with the profile reason, but the call has already consumed a rate-limit
slot: the pruned history plus the new timestamp is stored. -/
theorem c7_profile_denial_after_rate_limit (st : PolicyState) (now : Int)
    (tool : String) (args : List (String × Value)) (profile : SystemProfile)
    (h1 : FORBIDDEN_OPERATIONS.contains tool = false)
    (h2 : (pruneWindow now (historyOf st tool)).length < rateLimitFor tool)
    (h3 : (profile.available_tools.find?
        (fun p => p.1 = toolCategoryOf tool)).map (fun p => p.2) = some false) :
    (check_operation st now tool args profile).1 =
      (false, "Tool category " ++ sq (toolCategoryOf tool) ++
        " not available in profile " ++ profile.name) ∧
    historyOf (check_operation st now tool args profile).2 tool =
      pruneWindow now (historyOf st tool) ++ [now] := by
  have hrl : check_rate_limit tool
      (historyOf (audit_log_record st now tool args "check_started") tool) now =
      (true, pruneWindow now (historyOf st tool) ++ [now]) := by
    rw [historyOf_audit_log_record]
    unfold check_rate_limit
    rw [if_neg (not_le.mpr h2)]
  unfold check_operation forbiddenStage
  rw [if_neg (by simpa using h1), hrl]
  unfold rateVerdictStage
  rw [if_neg (by simp)]
  unfold profileStage
  rw [if_pos h3]
  refine ⟨rfl, ?_⟩
  show historyOf (audit_log_record _ now tool args "not_available_in_profile")
    tool = _
  rw [historyOf_audit_log_record, historyOf_setHistory_self]

/-- Witness for C7's amended theorem: a fresh state, the tool
`screenshot` disabled in the profile: the profile reason is returned and
the timestamp is recorded. -/
theorem c7_profile_denial_witness :
    (FORBIDDEN_OPERATIONS.contains "screenshot" = false) ∧
    ((pruneWindow 0 (historyOf initState "screenshot")).length <
      rateLimitFor "screenshot") ∧
    (check_operation initState 0 "screenshot" []
        { name := "p", available_tools := [("screenshot", false)],
          init_system := "systemd" }).1 =
      (false, "Tool category " ++ sq (toolCategoryOf "screenshot") ++
        " not available in profile " ++
        ({ name := "p", available_tools := [("screenshot", false)],
           init_system := "systemd" } : SystemProfile).name) := by
  refine ⟨by decide, by decide, ?_⟩
  exact (c7_profile_denial_after_rate_limit initState 0 "screenshot" []
    { name := "p", available_tools := [("screenshot", false)],
      init_system := "systemd" } (by decide) (by decide) (by decide)).1

/-! ## C8: audit coverage of the public checks -/

/-- C8 counterexample: the claim fails on the code.  `is_method_allowed`
renders a decision (here: allowing `Notify`) yet appends no audit record:
from a fresh state the audit log is still empty after the call. -/
theorem c8_audit_counterexample :
    (is_method_allowed_run initState "high" "org.freedesktop.Notifications"
        "org.freedesktop.Notifications" "Notify").1 = true ∧
    (is_method_allowed_run initState "high" "org.freedesktop.Notifications"
        "org.freedesktop.Notifications" "Notify").2.audit_log = [] :=
  ⟨by decide, rfl⟩

/-- C8 amended: `check_operation` always appends a `check_started` record,
and on every path except the systemd-requirement denial also appends a
final-verdict record (forbidden / rate_limited / not_available_in_profile /
allowed) matching the returned verdict; `is_method_allowed` appends no
audit record at all.  Stated below the truncation threshold so appends are
plain list appends. -/
theorem c8_audit_coverage (st : PolicyState) (now : Int) (tool : String)
    (args : List (String × Value)) (profile : SystemProfile)
    (h : st.audit_log.length + 2 ≤ 10000) :
    ((∃ v, (v = "forbidden" ∨ v = "rate_limited" ∨
        v = "not_available_in_profile" ∨ v = "allowed") ∧
      (check_operation st now tool args profile).2.audit_log =
        st.audit_log ++
          [mkEntry now tool args "check_started", mkEntry now tool args v] ∧
      ((check_operation st now tool args profile).1.1 = true ↔ v = "allowed")) ∨
     ((check_operation st now tool args profile).1 =
        (false, "System tools require systemd") ∧
      (check_operation st now tool args profile).2.audit_log =
        st.audit_log ++ [mkEntry now tool args "check_started"])) ∧
    (∀ level service iface method,
      (is_method_allowed_run st level service iface method).2.audit_log =
        st.audit_log) := by
  refine ⟨?_, fun level service iface method => rfl⟩
  have e1 : (audit_log_record st now tool args "check_started").audit_log =
      st.audit_log ++ [mkEntry now tool args "check_started"] :=
    audit_log_record_of_le st now tool args "check_started" (by omega)
  have hlen1 : (audit_log_record st now tool args "check_started").audit_log.length
      + 1 ≤ 10000 := by
    rw [e1, List.length_append]
    simp only [List.length_cons, List.length_nil]
    omega
  unfold check_operation forbiddenStage
  split
  · left
    refine ⟨"forbidden", by tauto, ?_, by simp⟩
    show (audit_log_record _ now tool args "forbidden").audit_log = _
    rw [audit_log_record_of_le _ now tool args "forbidden" hlen1, e1,
      List.append_assoc]
    rfl
  · have e2 : (setHistory (audit_log_record st now tool args "check_started")
        tool (check_rate_limit tool
          (historyOf (audit_log_record st now tool args "check_started") tool)
          now).2).audit_log =
        st.audit_log ++ [mkEntry now tool args "check_started"] := by
      rw [setHistory_audit_log, e1]
    have hlen2 : (setHistory (audit_log_record st now tool args "check_started")
        tool (check_rate_limit tool
          (historyOf (audit_log_record st now tool args "check_started") tool)
          now).2).audit_log.length + 1 ≤ 10000 := by
      rw [e2, List.length_append]
      simp only [List.length_cons, List.length_nil]
      omega
    unfold rateVerdictStage
    split
    · left
      refine ⟨"rate_limited", by tauto, ?_, by simp⟩
      show (audit_log_record _ now tool args "rate_limited").audit_log = _
      rw [audit_log_record_of_le _ now tool args "rate_limited" hlen2, e2,
        List.append_assoc]
      rfl
    · unfold profileStage
      split
      · left
        refine ⟨"not_available_in_profile", by tauto, ?_, by simp⟩
        show (audit_log_record _ now tool args
          "not_available_in_profile").audit_log = _
        rw [audit_log_record_of_le _ now tool args "not_available_in_profile"
          hlen2, e2, List.append_assoc]
        rfl
      · split
        · right
          exact ⟨rfl, e2⟩
        · left
          refine ⟨"allowed", by tauto, ?_, by simp⟩
          show (audit_log_record _ now tool args "allowed").audit_log = _
          rw [audit_log_record_of_le _ now tool args "allowed" hlen2, e2,
            List.append_assoc]
          rfl

/-- Witness for C8's amended theorem: applied at a fresh state; in
particular an `is_method_allowed` call leaves the audit log of the fresh
state unchanged. -/
theorem c8_audit_coverage_witness :
    (initState.audit_log.length + 2 ≤ 10000) ∧
    (is_method_allowed_run initState "high" "org.kde.klipper"
        "org.kde.klipper.klipper" "Get").2.audit_log = initState.audit_log :=
  ⟨by decide,
   (c8_audit_coverage initState 0 "notify" []
      { name := "p", available_tools := [], init_system := "systemd" }
      (by decide)).2 "high" "org.kde.klipper" "org.kde.klipper.klipper" "Get"⟩

end DbusMcp
